import Mathlib

/-!
Verification of the trip-planner application core (app.py).

Modelling conventions:

* Calendar dates are represented by their proleptic-Gregorian ordinal
  (`datetime.date.toordinal`, a natural number, 0001-01-01 = 1).  The
  application stores dates as ISO `YYYY-MM-DD` text and always compares
  them either as parsed `date` objects or as ISO strings produced by
  `isoformat` (both orders coincide); adding `timedelta(days=1)` is
  successor on ordinals.  The text layer itself (`parse_date`,
  `isoformat`) is modelled separately and exactly, on real strings.
* Database rows become Lean structures; a table is a `List` of rows in
  primary-key (`id`) order, which is the order every query of app.py
  returns (`ORDER BY id` / insertion order).  AUTOINCREMENT is modelled
  by an explicit fresh-id counter.
* Python truthiness of optional text columns (`x or y`) is modelled on
  `Option String`, where both `none` and `some ""` are falsy.
* `int(round(v))` on the completion ratio is evaluated on the seven
  reachable inputs and reproduced by an exact integer formula.
-/

/-! ## Date text: parse_date (datetime.strptime "%Y-%m-%d") and isoformat -/

/-- Value of a digit character. -/
def digitVal (c : Char) : Nat := c.toNat - '0'.toNat

/-- Test for an ASCII digit, as matched by the `\d` class of `_strptime`. -/
def isDig (c : Char) : Bool := decide ('0' ≤ c) && decide (c ≤ '9')

/-- Candidate matches, in preference order, of the CPython `_strptime`
regex for `%m`, namely `1[0-2]|0[1-9]|[1-9]`: each candidate is the month
value together with the unconsumed suffix.  Backtracking of the regex
engine corresponds to trying the candidates in list order. -/
def monthCands : List Char → List (Nat × List Char)
  | '1' :: c :: rest =>
      (if c = '0' ∨ c = '1' ∨ c = '2' then [(10 + digitVal c, rest)] else [])
        ++ [(1, c :: rest)]
  | ['1'] => [(1, [])]
  | '0' :: c :: rest => if '1' ≤ c ∧ c ≤ '9' then [(digitVal c, rest)] else []
  | c :: rest => if '2' ≤ c ∧ c ≤ '9' then [(digitVal c, rest)] else []
  | [] => []

/-- Candidate matches, in preference order, of the `_strptime` regex for
`%d`, namely `3[0-1]|[1-2]\d|0[1-9]|[1-9]| [1-9]`. -/
def dayCands : List Char → List (Nat × List Char)
  | c1 :: c2 :: rest =>
      (if c1 = '3' ∧ (c2 = '0' ∨ c2 = '1') then [(30 + digitVal c2, rest)] else [])
        ++ (if (c1 = '1' ∨ c1 = '2') ∧ isDig c2 then
              [(10 * digitVal c1 + digitVal c2, rest)] else [])
        ++ (if c1 = '0' ∧ ('1' ≤ c2 ∧ c2 ≤ '9') then [(digitVal c2, rest)] else [])
        ++ (if '1' ≤ c1 ∧ c1 ≤ '9' then [(digitVal c1, c2 :: rest)] else [])
        ++ (if c1 = ' ' ∧ ('1' ≤ c2 ∧ c2 ≤ '9') then [(digitVal c2, rest)] else [])
  | [c1] => if '1' ≤ c1 ∧ c1 ≤ '9' then [(digitVal c1, [])] else []
  | [] => []

/-- Match `%d` against the whole remaining input (strptime rejects
unconverted trailing data). -/
def matchDayEnd (cs : List Char) : Option Nat :=
  (dayCands cs).findSome? (fun p => if p.2 = [] then some p.1 else none)

/-- Match `%m`, a literal dash, then `%d` against the whole remaining
input, with the regex backtracking order. -/
def matchMonthDash (cs : List Char) : Option (Nat × Nat) :=
  (monthCands cs).findSome? (fun p =>
    match p.2 with
    | '-' :: r2 => (matchDayEnd r2).map (fun d => (p.1, d))
    | _ => none)

/-- Gregorian leap-year test (`calendar.isleap`, as used by `datetime`). -/
def isLeap (y : Nat) : Bool :=
  (y % 4 == 0) && (!(y % 100 == 0) || (y % 400 == 0))

/-- Number of days in a month, as enforced by the `datetime.date`
constructor. -/
def daysInMonth (y m : Nat) : Nat :=
  if m = 2 then (if isLeap y then 29 else 28)
  else if m = 4 ∨ m = 6 ∨ m = 9 ∨ m = 11 then 30
  else 31

/-- The `datetime.date(y, m, d)` constructor checks. -/
def validYmd (y m d : Nat) : Bool :=
  decide (1 ≤ y) && decide (y ≤ 9999) && decide (1 ≤ m) && decide (m ≤ 12)
    && decide (1 ≤ d) && decide (d ≤ daysInMonth y m)

/-- A calendar date as year / month / day fields. -/
structure Ymd where
  y : Nat
  m : Nat
  d : Nat
deriving DecidableEq, Repr

/-- `strptime "%Y-%m-%d"` on a character list: four digits for `%Y`, the
literal dash, then month, dash and day; the matched fields then pass
through the `datetime.date` constructor checks. -/
def parseDateChars : List Char → Option Ymd
  | c1 :: c2 :: c3 :: c4 :: c5 :: rest =>
      if (c5 == '-') && isDig c1 && isDig c2 && isDig c3 && isDig c4 then
        match matchMonthDash rest with
        | some (m, d) =>
            let y := 1000 * digitVal c1 + 100 * digitVal c2 + 10 * digitVal c3 + digitVal c4
            if validYmd y m d then some ⟨y, m, d⟩ else none
        | none => none
      else none
  | _ => none

/-- app.py `parse_date`: `datetime.strptime(value, "%Y-%m-%d").date()`.
The `_strptime` regex for `%Y` is exactly four digits; the full pattern
must consume the whole string; the resulting fields then pass through the
`datetime.date` constructor.  Returns `none` where the original raises
`ValueError`. -/
def parse_date (s : String) : Option Ymd := parseDateChars s.data

/-- Two-digit zero-padded decimal rendering (`%02d`). -/
def pad2 (n : Nat) : List Char := [Nat.digitChar (n / 10 % 10), Nat.digitChar (n % 10)]

/-- Four-digit zero-padded decimal rendering (`%04d`). -/
def pad4 (n : Nat) : List Char :=
  [Nat.digitChar (n / 1000 % 10), Nat.digitChar (n / 100 % 10),
   Nat.digitChar (n / 10 % 10), Nat.digitChar (n % 10)]

/-- `datetime.date.isoformat`: strict `YYYY-MM-DD` text of a date. -/
def isoformat (x : Ymd) : String :=
  String.mk (pad4 x.y ++ '-' :: pad2 x.m ++ '-' :: pad2 x.d)

/-- Spec-side notion used by claim C4 (and only by it): strict
`YYYY-MM-DD` text, i.e. a four-digit year, a dash, a two-digit
zero-padded month, a dash, and a two-digit zero-padded day. -/
def strictYmdText (s : String) : Bool :=
  match s.data with
  | [a, b, c, d, h1, e, f, h2, g, k] =>
      isDig a && isDig b && isDig c && isDig d && (h1 == '-')
        && isDig e && isDig f && (h2 == '-') && isDig g && isDig k
  | _ => false

/-- Month lengths of a year, January first. -/
def monthLengths (y : Nat) : List Nat :=
  [31, if isLeap y then 29 else 28, 31, 30, 31, 30, 31, 31, 30, 31, 30, 31]

/-- Days in year `y` strictly before month `m`. -/
def daysBeforeMonth (y m : Nat) : Nat := ((monthLengths y).take (m - 1)).sum

/-- `datetime.date.toordinal`: 0001-01-01 is day 1.  This is the
isomorphism under which the rest of the model represents dates as
naturals. -/
def toOrdinal (y m d : Nat) : Nat :=
  365 * (y - 1) + (y - 1) / 4 - (y - 1) / 100 + (y - 1) / 400 + daysBeforeMonth y m + d

/-! ## Python text primitives and truthiness on optional text -/

/-- The characters Python `str.strip()` removes (ASCII whitespace). -/
def isPySpace (c : Char) : Bool :=
  c = ' ' || c = '\t' || c = '\n' || c = '\r' || c = '\x0b' || c = '\x0c'

/-- Python `str.strip()`: drop leading and trailing whitespace. -/
def pyStrip (s : String) : String :=
  String.mk (((s.data.dropWhile isPySpace).reverse.dropWhile isPySpace).reverse)

/-- Python `str.lower()` (ASCII case folding, which covers every string
the application compares). -/
def pyLower (s : String) : String := String.mk (s.data.map Char.toLower)

/-- Truthiness of an optional text column: Python `bool(x or "")` for a
value that is `NULL` or a string. -/
def truthy (s : Option String) : Bool := decide (s.getD "" ≠ "")

/-- Python `x or dflt` where `x` is an optional string and the result is
used as a string. -/
def pyOrDefault (v : Option String) (dflt : String) : String :=
  match v with
  | some s => if s = "" then dflt else s
  | none => dflt

/-- Python substring test `needle in hay`. -/
def strContains (hay needle : String) : Bool :=
  decide (List.IsInfix needle.data hay.data)

/-- Case-insensitive substring test: `needle.lower() in hay.lower()`. -/
def substrCI (needle hay : String) : Bool :=
  decide (List.IsInfix (pyLower needle).data (pyLower hay).data)

/-! ## Data model (tables of app.py's sqlite schema) -/

/-- A row of the `trips` table.  Dates are ordinals (see header). -/
structure Trip where
  id : Nat
  destination : String
  start_date : Nat
  end_date : Nat
  travel_style : String
deriving DecidableEq, Repr

/-- A row of the `itinerary` table. -/
structure DayRow where
  id : Nat
  trip_id : Nat
  day_number : Nat
  date : Nat
  morning_title : Option String := none
  morning_description : Option String := none
  morning_map_link : Option String := none
  afternoon_title : Option String := none
  afternoon_description : Option String := none
  afternoon_map_link : Option String := none
  evening_title : Option String := none
  evening_description : Option String := none
  evening_map_link : Option String := none
deriving DecidableEq, Repr

/-- The nine slot-content columns of an itinerary row (titles,
descriptions, map links), as one tuple. -/
def slotContent (d : DayRow) : List (Option String) :=
  [d.morning_title, d.morning_description, d.morning_map_link,
   d.afternoon_title, d.afternoon_description, d.afternoon_map_link,
   d.evening_title, d.evening_description, d.evening_map_link]

/-- A row of the `day_items` table (checklist items). -/
structure DayItem where
  id : Nat
  itinerary_id : Nat
  category : String
  name : String
  checked : Bool
  slot : Option String := none
  hidden : Bool := false
deriving DecidableEq, Repr

/-- A row of the `trip_stops` table. -/
structure Stop where
  id : Nat
  trip_id : Nat
  name : String
  start_date : Nat
  end_date : Nat
deriving DecidableEq, Repr

/-- A row of the `budget_items` table.  The costs are sqlite `REAL`
columns; no claim depends on their arithmetic, so they are modelled as
exact rationals. -/
structure BudgetItem where
  id : Nat
  trip_id : Nat
  label : String
  estimated_cost : Rat
  actual_cost : Rat
deriving DecidableEq

/-- A row of the `packing_items` table. -/
structure PackingItem where
  id : Nat
  trip_id : Nat
  category : String
  label : String
  checked : Bool
deriving DecidableEq, Repr

/-- The whole store.  `seq` is the next fresh row id (AUTOINCREMENT). -/
structure DB where
  seq : Nat
  trips : List Trip
  itinerary : List DayRow
  day_items : List DayItem
  trip_stops : List Stop
  budget_items : List BudgetItem
  packing_items : List PackingItem
deriving DecidableEq

/-! ## Date ranges and the stop-to-date mapping -/

/-- The inclusive walk `current = start; while current <= end: ...;
current += timedelta(days=1)`, empty when `e < s`. -/
def date_range (s e : Nat) : List Nat := List.range' s (e + 1 - s)

/-- The dict built by `for stop in stops: for current in stop range:
location_by_date[current] = stop.name`, as an association list in write
order (a later pair for the same key overwrites an earlier one). -/
def locMap (stops : List Stop) : List (Nat × String) :=
  stops.foldl
    (fun m st => m ++ (date_range st.start_date st.end_date).map (fun d => (d, st.name))) []

/-- Dict lookup on an association list in write order: the last write for
the key wins. -/
def lookupLast (m : List (Nat × String)) (d : Nat) : Option String :=
  ((m.reverse.find? (fun p => p.1 == d)).map (fun p => p.2))

/-- `location_by_date.get(date)` of app.py (trip_detail, trip_summary,
export, suggest_places all build it the same way). -/
def locationByDate (stops : List Stop) (d : Nat) : Option String :=
  lookupLast (locMap stops) d

/-- `location_by_date.get(day["date"]) or trip["destination"]`. -/
def locationOr (stops : List Stop) (dest : String) (d : Nat) : String :=
  pyOrDefault (locationByDate stops d) dest

/-! ## Day aggregation (trip_detail) -/

/-- The per-day, per-category grouping of checklist items: the query
keeps rows with `hidden IS NULL OR hidden = 0` for the trip's days in id
order, and buckets them by `itinerary_id` and `category`. -/
def itemsForDay (items : List DayItem) (dayId : Nat) (cat : String) : List DayItem :=
  items.filter (fun it => !it.hidden && it.itinerary_id == dayId && it.category == cat)

/-- All visible (non-hidden) items of one day, in id order. -/
def visibleItemsForDay (items : List DayItem) (dayId : Nat) : List DayItem :=
  items.filter (fun it => !it.hidden && it.itinerary_id == dayId)

/-- trip_detail hotel filtering: from the day's (visible) hotel bucket,
when `location_by_date.get(day.date)` is truthy keep the items whose
lower-cased name contains the lower-cased location, else keep all. -/
def hotelsFilteredForDay (stops : List Stop) (items : List DayItem) (day : DayRow) :
    List DayItem :=
  let hotels := itemsForDay items day.id "hotel"
  match locationByDate stops day.date with
  | some loc => if loc = "" then hotels else hotels.filter (fun h => substrCI loc h.name)
  | none => hotels

/-- Spec-side definition used by claim C2 (and only by it), following the
claim's words: the retained list is computed from the day's checked hotel
items only. -/
def claimHotelsRetained (stops : List Stop) (items : List DayItem) (day : DayRow) :
    List DayItem :=
  let checkedHotels := (itemsForDay items day.id "hotel").filter (fun h => h.checked)
  match locationByDate stops day.date with
  | some loc => checkedHotels.filter (fun h => substrCI loc h.name)
  | none => checkedHotels

/-- Whether a slot description counts as filled:
`(day["..._description"] or "").strip()` is truthy. -/
def filledDesc (s : Option String) : Bool := decide (pyStrip (s.getD "") ≠ "")

/-- `slots_filled`: how many of the three descriptions are non-blank. -/
def slotsFilled (day : DayRow) : Nat :=
  (if filledDesc day.morning_description then 1 else 0)
    + (if filledDesc day.afternoon_description then 1 else 0)
    + (if filledDesc day.evening_description then 1 else 0)

/-- The `meal_flags` accumulator of trip_detail. -/
structure MealFlags where
  breakfast : Bool
  lunch : Bool
  dinner : Bool
deriving DecidableEq, Repr

/-- `(item["slot"] or "").lower()`. -/
def lowerSlot (it : DayItem) : String := pyLower (it.slot.getD "")

/-- One iteration of `for item in restaurants: ... if slot in meal_flags
and item["checked"]: meal_flags[slot] = True`. -/
def flagStep (f : MealFlags) (it : DayItem) : MealFlags :=
  if lowerSlot it = "breakfast" ∧ it.checked then { f with breakfast := true }
  else if lowerSlot it = "lunch" ∧ it.checked then { f with lunch := true }
  else if lowerSlot it = "dinner" ∧ it.checked then { f with dinner := true }
  else f

/-- `meals_picked`: number of true flags after the loop. -/
def mealsPicked (restaurants : List DayItem) : Nat :=
  let f := restaurants.foldl flagStep ⟨false, false, false⟩
  (if f.breakfast then 1 else 0) + (if f.lunch then 1 else 0) + (if f.dinner then 1 else 0)

/-- `int(round(x / 6.0 * 100))` evaluated as an exact integer formula.
Its only reachable inputs are x = 0..6, on which the Python float
expression yields 0, 17, 33, 50, 67, 83, 100 - exactly round-to-nearest
of 100*x/6, which this formula computes. -/
def pyRoundPct6 (x : Nat) : Nat := (200 * x + 6) / 12

/-- The completion percent of one day in trip_detail. -/
def dayCompletionPercent (items : List DayItem) (day : DayRow) : Nat :=
  pyRoundPct6 (slotsFilled day + mealsPicked (itemsForDay items day.id "restaurant"))

/-- Round-to-nearest of the rational num/den, as in the words of claim
C6 (used only to state it). -/
def roundRat (num den : Nat) : Nat := (2 * num + den) / (2 * den)

/-- Spec-side count used by claim C6's words: distinct meals among
breakfast, lunch, dinner having at least one checked visible restaurant
item with that slot. -/
def mealsPickedSpec (items : List DayItem) (dayId : Nat) : Nat :=
  ["breakfast", "lunch", "dinner"].countP (fun m =>
    (itemsForDay items dayId "restaurant").any (fun it => it.checked && lowerSlot it == m))

/-! ## Itinerary reconciliation (edit_trip) -/

/-- `by_date = {row["date"]: row for row in existing_days}` followed by a
lookup: the last row with the date wins. -/
def byDate (rows : List DayRow) (d : Nat) : Option DayRow :=
  rows.reverse.find? (fun r => r.date == d)

/-- A brand-new itinerary row as inserted by edit_trip (only trip_id,
day_number and date are set; all slot content is NULL). -/
def freshDay (tripId id dn date : Nat) : DayRow :=
  { id := id, trip_id := tripId, day_number := dn, date := date }

/-- The `while current <= new_end` loop of edit_trip: `k` iterations
starting at date `cur` with day number `dn`, inserting fresh rows with
ids from `nid`.  Returns the final day rows in walk order together with
the collected `used_ids`. -/
def walkAux (ex : List DayRow) (tripId : Nat) :
    Nat → Nat → Nat → Nat → List DayRow × List Nat
  | 0, _, _, _ => ([], [])
  | k + 1, cur, dn, nid =>
      match byDate ex cur with
      | some row =>
          let rest := walkAux ex tripId k (cur + 1) (dn + 1) nid
          ({ row with day_number := dn, date := cur } :: rest.1, row.id :: rest.2)
      | none =>
          let rest := walkAux ex tripId k (cur + 1) (dn + 1) (nid + 1)
          (freshDay tripId nid dn cur :: rest.1, rest.2)

/-- Result of the date-range reconciliation of edit_trip. -/
structure ReconcileResult where
  days : List DayRow
  used_ids : List Nat
  removed_ids : List Nat
deriving DecidableEq

/-- The reconciliation block of edit_trip (lines 1475-1531): walk the new
range reusing rows by date, then schedule every unused existing row for
deletion. -/
def reconcile (ex : List DayRow) (tripId s e nid : Nat) : ReconcileResult :=
  let w := walkAux ex tripId (e + 1 - s) s 1 nid
  { days := w.1
    used_ids := w.2
    removed_ids := (ex.filter (fun r => !(w.2.contains r.id))).map (fun r => r.id) }

/-- `DELETE FROM day_items WHERE itinerary_id IN to_remove`. -/
def deleteItemsOfDays (items : List DayItem) (removed : List Nat) : List DayItem :=
  items.filter (fun it => !(removed.contains it.itinerary_id))

/-! ## CSV import / export -/

/-- One raw CSV row as handed over by `csv.DictReader` (missing columns
read as `None`).  The `date` column is abstracted by its `parse_date`
result: `none` for blank or unparseable text, `some` ordinal for text the
strict parser accepts - the text layer itself is settled by the
`parse_date` theorems. -/
structure RawRow where
  date : Option Nat := none
  time_of_day : Option String := none
  category : Option String := none
  name : Option String := none
  city : Option String := none
  meal : Option String := none
  selected : Option String := none
deriving DecidableEq

/-- `selected` parsing of app.py:
`(row.get("selected") or "").strip().lower() in {"0","false","no","n"}`
gives unchecked, anything else checked. -/
def parseSelected (raw : Option String) : Bool :=
  let s := pyLower (pyStrip (raw.getD ""))
  !(s == "0" || s == "false" || s == "no" || s == "n")

/-- Spec-side predicate used by claim C5 (and only by it), following the
claim's words: unchecked exactly when the value itself, case-insensitively,
is one of the four literal tokens. -/
def claimSelected (raw : Option String) : Bool :=
  let s := pyLower (raw.getD "")
  !(s == "0" || s == "false" || s == "no" || s == "n")

/-- A successfully parsed CSV row. -/
structure ParsedRow where
  date : Nat
  name : String
  time_of_day : String
  category : String
  city : String
  meal : String
  selected : Bool
deriving DecidableEq

/-- Category coercion: anything outside place/restaurant/hotel becomes
place. -/
def normCategory (c : String) : String :=
  if c = "place" ∨ c = "restaurant" ∨ c = "hotel" then c else "place"

/-- Per-row validation and normalization shared by both import modes:
skip rows with blank date, blank name or unparseable date; lower-case
time_of_day, category and meal; coerce the category; parse `selected`. -/
def parseRow (r : RawRow) : Option ParsedRow :=
  match r.date with
  | none => none
  | some d =>
      let name := pyStrip (r.name.getD "")
      if name = "" then none
      else some
        { date := d
          name := name
          time_of_day := pyLower (pyStrip (r.time_of_day.getD ""))
          category := normCategory (pyLower (pyStrip (r.category.getD "")))
          city := pyStrip (r.city.getD "")
          meal := pyLower (pyStrip (r.meal.getD ""))
          selected := parseSelected r.selected }

/-- Effective slot of an imported row. -/
def slotFor (r : ParsedRow) : Option String :=
  if r.category = "place" then
    (if r.time_of_day = "morning" ∨ r.time_of_day = "afternoon" ∨ r.time_of_day = "evening"
     then some r.time_of_day else none)
  else if r.category = "restaurant" then
    (if r.meal = "breakfast" ∨ r.meal = "lunch" ∨ r.meal = "dinner" ∨ r.meal = "snack"
     then some r.meal else none)
  else none

/-- The distinct non-blank city values in first-occurrence order
(`city_dates.setdefault` preserves dict insertion order). -/
def cityNames (rows : List ParsedRow) : List String :=
  rows.foldl
    (fun acc r =>
      if r.city = "" then acc
      else if acc.contains r.city then acc else acc ++ [r.city]) []

/-- Minimum of a non-empty list of naturals (Python `min`; 0 for []). -/
def listMin : List Nat → Nat
  | [] => 0
  | x :: xs => xs.foldl Nat.min x

/-- Maximum of a non-empty list of naturals (Python `max`; 0 for []). -/
def listMax : List Nat → Nat
  | [] => 0
  | x :: xs => xs.foldl Nat.max x

/-- Number a list with consecutive fresh ids starting at `n`. -/
def withIds {α β : Type} (n : Nat) (f : Nat → α → β) : List α → List β
  | [] => []
  | x :: xs => f n x :: withIds (n + 1) f xs

/-- Stops derived from the grouped city values: one stop per city with
the min/max dates of that city's rows. -/
def cityStops (tripId : Nat) (rows : List ParsedRow) (firstId : Nat) : List Stop :=
  withIds firstId
    (fun i c =>
      let ds := (rows.filter (fun r => r.city == c)).map (fun r => r.date)
      { id := i, trip_id := tripId, name := c,
        start_date := listMin ds, end_date := listMax ds })
    (cityNames rows)

/-- Insert one `day_items` row per parsed row, attached to the itinerary
row found by date; rows whose date has no matching day are skipped (and
consume no id, as in sqlite). -/
def itemsFromRows (dayRows : List DayRow) (rows : List ParsedRow) (firstId : Nat) :
    List DayItem :=
  match rows with
  | [] => []
  | r :: rest =>
      match byDate dayRows r.date with
      | none => itemsFromRows dayRows rest firstId
      | some day =>
          { id := firstId, itinerary_id := day.id, category := r.category,
            name := r.name, checked := r.selected, slot := slotFor r, hidden := false }
            :: itemsFromRows dayRows rest (firstId + 1)

/-- The day-building loop shared by trip creation / CSV origination /
edit_trip (fresh part): `k` rows starting at date `date`, day number
`dn`, ids from `id`. -/
def makeDaysAux (tripId : Nat) : Nat → Nat → Nat → Nat → List DayRow
  | 0, _, _, _ => []
  | k + 1, id, dn, date =>
      freshDay tripId id dn date :: makeDaysAux tripId k (id + 1) (dn + 1) (date + 1)

/-- The full itinerary of a date range. -/
def makeDays (tripId firstId s e : Nat) : List DayRow :=
  makeDaysAux tripId (e + 1 - s) firstId 1 s

/-- Everything created by a CSV origination import. -/
structure NewTrip where
  trip : Trip
  days : List DayRow
  stops : List Stop
  items : List DayItem
deriving DecidableEq

/-- CSV origination mode (route import_trip_csv): parse all rows; if none
survive, report failure; otherwise create the trip over [min, max] of the
row dates, its full day range, the per-city stops and one item per row. -/
def csvImportNewTrip (destination travel_style : String) (raws : List RawRow)
    (tripId firstDayId firstStopId firstItemId : Nat) : Option NewTrip :=
  let parsed := raws.filterMap parseRow
  if parsed = [] then none
  else
    let dates := parsed.map (fun r => r.date)
    let s := listMin dates
    let e := listMax dates
    let days := makeDays tripId firstDayId s e
    some
      { trip := { id := tripId, destination := destination, start_date := s,
                  end_date := e, travel_style := travel_style }
        days := days
        stops := cityStops tripId parsed firstStopId
        items := itemsFromRows days parsed firstItemId }

/-- The rows kept by merge mode: `trip_start <= r.date <= trip_end`. -/
def inRangeRows (trip : Trip) (rows : List ParsedRow) : List ParsedRow :=
  rows.filter (fun r => decide (trip.start_date ≤ r.date) && decide (r.date ≤ trip.end_date))

/-- CSV merge-into-existing mode (route import_trip_csv_into_trip).
Returns the resulting store and whether an error was reported; every
error path leaves the store untouched (the connection is closed without
commit). -/
def csvImportIntoTrip (db : DB) (tripId : Nat) (raws : List RawRow) : DB × Bool :=
  match db.trips.find? (fun t => t.id == tripId) with
  | none => (db, true)
  | some trip =>
      let parsed := raws.filterMap parseRow
      if parsed = [] then (db, true)
      else
        let inRange := inRangeRows trip parsed
        if inRange = [] then (db, true)
        else
          let dayRows := db.itinerary.filter (fun r => r.trip_id == tripId)
          let newStops := cityStops tripId inRange db.seq
          let newItems := itemsFromRows dayRows inRange (db.seq + newStops.length)
          ({ db with
              trip_stops := db.trip_stops ++ newStops
              day_items := db.day_items ++ newItems
              seq := db.seq + newStops.length + newItems.length }, false)

/-- CSV export of a row's time_of_day column. -/
def todOf (it : DayItem) : String :=
  let slot := it.slot.getD ""
  if it.category = "place" ∧ (slot = "morning" ∨ slot = "afternoon" ∨ slot = "evening")
  then slot else ""

/-- CSV export of a row's meal column. -/
def mealOf (it : DayItem) : String :=
  let slot := it.slot.getD ""
  if it.category = "restaurant"
      ∧ (slot = "breakfast" ∨ slot = "lunch" ∨ slot = "dinner" ∨ slot = "snack")
  then slot else ""

/-- The CSV row written for one visible item of one day
(`writer.writerow([...])` in export_trip_csv). -/
def exportRowOf (dayDate : Nat) (city : String) (it : DayItem) : RawRow :=
  { date := some dayDate
    time_of_day := some (todOf it)
    category := some it.category
    name := some it.name
    city := some city
    meal := some (mealOf it)
    selected := some (if it.checked then "1" else "0") }

/-- CSV export (route export_trip_csv): one row per visible item, days in
day_number order, items in id order, city resolved through the stop map
with the destination as default. -/
def exportRows (trip : Trip) (days : List DayRow) (stops : List Stop)
    (items : List DayItem) : List RawRow :=
  days.flatMap (fun day =>
    (visibleItemsForDay items day.id).map
      (exportRowOf day.date (locationOr stops trip.destination day.date)))

/-- The parsed form of an exported item row (derived shape, used to state
and prove the round-trip claim). -/
def rowOfItem (dayDate : Nat) (city : String) (it : DayItem) : ParsedRow :=
  { date := dayDate, name := it.name, time_of_day := todOf it,
    category := it.category, city := pyStrip city, meal := mealOf it,
    selected := it.checked }

/-- The (date, category, name, checked) tuples of a trip's visible
checklist items, day by day. -/
def itemTuples (days : List DayRow) (items : List DayItem) :
    List (Nat × String × String × Bool) :=
  days.flatMap (fun day =>
    (visibleItemsForDay items day.id).map (fun it =>
      (day.date, it.category, it.name, it.checked)))

/-- Whether a stored slot value is one of the recognized values for its
category (the values export writes to time_of_day or meal and import
recognizes again). -/
def recognizedSlot (cat : String) (slot : Option String) : Bool :=
  match slot with
  | none => false
  | some s =>
      (cat == "place" && (s == "morning" || s == "afternoon" || s == "evening"))
        || (cat == "restaurant"
              && (s == "breakfast" || s == "lunch" || s == "dinner" || s == "snack"))

/-- Id of the itinerary row found by date (0 if absent; used only where
presence is proved). -/
def dayIdFor (dayRows : List DayRow) (d : Nat) : Nat :=
  match byDate dayRows d with
  | some row => row.id
  | none => 0

/-! ## generate_itinerary -/

/-- The three style-dependent description texts of
build_ai_style_itinerary (identical for every day of the trip). -/
def aiDayTexts (trip : Trip) : String × String × String :=
  let dst := trip.destination
  let style := pyLower trip.travel_style
  if strContains style "food" ∨ strContains style "foodie" then
    ("Start your day at a local cafe in " ++ dst ++ ".",
     "Take a walking food tour and sample street food in " ++ dst ++ ".",
     "Dinner at a neighborhood restaurant known for regional specialties in " ++ dst ++ ".")
  else if strContains style "budget" then
    ("Explore a free park, garden, or public space in " ++ dst ++ ".",
     "Visit a low-cost museum or market and people-watch in " ++ dst ++ ".",
     "Find a casual, affordable spot for dinner and stroll the city center in " ++ dst ++ ".")
  else if strContains style "family" then
    ("Family-friendly attraction or playground in " ++ dst ++ ".",
     "Interactive museum, zoo, or aquarium suited for kids in " ++ dst ++ ".",
     "Relaxed dinner and early evening walk through a safe, lively area in " ++ dst ++ ".")
  else if strContains style "luxury" then
    ("Slow breakfast at a high-end cafe or in-hotel dining in " ++ dst ++ ".",
     "Spa treatment or private guided tour around " ++ dst ++ ".",
     "Tasting-menu dinner or rooftop bar experience in " ++ dst ++ ".")
  else
    ("Walk through a central neighborhood in " ++ dst ++ ".",
     "Visit one landmark or museum that interests you in " ++ dst ++ ".",
     "Try a recommended local restaurant and explore nearby streets in " ++ dst ++ ".")

/-- Route generate_itinerary: for each day, set each description to
`day[...] or content` (fill only falsy ones); titles and map links are
not touched by the UPDATE. -/
def generateItineraryDays (trip : Trip) (days : List DayRow) : List DayRow :=
  let t := aiDayTexts trip
  days.map (fun day =>
    { day with
      morning_description :=
        if truthy day.morning_description then day.morning_description else some t.1
      afternoon_description :=
        if truthy day.afternoon_description then day.afternoon_description else some t.2.1
      evening_description :=
        if truthy day.evening_description then day.evening_description else some t.2.2 })

/-! ## delete_trip -/

/-- Route delete_trip: delete the trip's day_items (via its itinerary
ids), its itinerary rows, its budget items, its stops, and the trip row.
The source contains no DELETE for packing_items. -/
def delete_trip (db : DB) (tripId : Nat) : DB :=
  let itinerary_ids := (db.itinerary.filter (fun r => r.trip_id == tripId)).map (fun r => r.id)
  { db with
    day_items := db.day_items.filter (fun it => !(itinerary_ids.contains it.itinerary_id))
    itinerary := db.itinerary.filter (fun r => !(r.trip_id == tripId))
    budget_items := db.budget_items.filter (fun b => !(b.trip_id == tripId))
    trip_stops := db.trip_stops.filter (fun s => !(s.trip_id == tripId))
    trips := db.trips.filter (fun t => !(t.id == tripId)) }

/-! ## General lemmas about the dict and fold helpers -/

theorem byDate_mem {rows : List DayRow} {d : Nat} {r : DayRow}
    (h : byDate rows d = some r) : r ∈ rows ∧ r.date = d := by
  refine ⟨List.mem_reverse.mp (List.mem_of_find?_eq_some h), ?_⟩
  have hp := List.find?_some h
  simpa using hp

theorem byDate_eq_none {rows : List DayRow} {d : Nat}
    (h : ∀ r ∈ rows, r.date ≠ d) : byDate rows d = none := by
  apply List.find?_eq_none.mpr
  intro x hx
  simp only [beq_iff_eq]
  exact h x (List.mem_reverse.mp hx)

theorem byDate_cons (x : DayRow) (xs : List DayRow) (d : Nat) :
    byDate (x :: xs) d = (byDate xs d).or (if x.date = d then some x else none) := by
  unfold byDate
  rw [List.reverse_cons, List.find?_append]
  by_cases h : x.date = d <;> simp [List.find?_cons, h]

theorem byDate_self {rows : List DayRow} (hnd : (rows.map (fun r => r.date)).Nodup)
    {r : DayRow} (hr : r ∈ rows) : byDate rows r.date = some r := by
  induction rows with
  | nil => cases hr
  | cons x xs ih =>
      rw [List.map_cons] at hnd
      have hnd2 := List.nodup_cons.mp hnd
      rw [byDate_cons]
      rcases List.mem_cons.mp hr with rfl | hmem
      · have hnone : byDate xs r.date = none := by
          apply byDate_eq_none
          intro y hy hdy
          exact hnd2.1 (hdy ▸ List.mem_map_of_mem (fun z => z.date) hy)
        rw [hnone]
        simp
      · rw [ih hnd2.2 hmem]
        simp

theorem mem_withIds {α β : Type} (f : Nat → α → β) :
    ∀ (l : List α) (n : Nat) (b : β),
      b ∈ withIds n f l ↔ ∃ i, ∃ h : i < l.length, b = f (n + i) (l.get ⟨i, h⟩) := by
  intro l
  induction l with
  | nil => intro n b; simp [withIds]
  | cons x xs ih =>
      intro n b
      simp only [withIds, List.mem_cons, ih]
      constructor
      · rintro (rfl | ⟨i, h, rfl⟩)
        · exact ⟨0, by simp, rfl⟩
        · refine ⟨i + 1, by simpa using Nat.succ_lt_succ h, ?_⟩
          rw [show n + (i + 1) = n + 1 + i by omega]
          rfl
      · rintro ⟨i, h, rfl⟩
        cases i with
        | zero => left; rfl
        | succ j =>
            right
            refine ⟨j, by simpa using Nat.lt_of_succ_lt_succ h, ?_⟩
            rw [show n + (j + 1) = n + 1 + j by omega]
            rfl

theorem foldl_min_le_init : ∀ (l : List Nat) (a : Nat), l.foldl Nat.min a ≤ a := by
  intro l
  induction l with
  | nil => intro a; simp
  | cons x xs ih => intro a; exact le_trans (ih (Nat.min a x)) (Nat.min_le_left a x)

theorem foldl_min_le_mem : ∀ (l : List Nat) (a x : Nat), x ∈ l → l.foldl Nat.min a ≤ x := by
  intro l
  induction l with
  | nil => intro a x hx; cases hx
  | cons y ys ih =>
      intro a x hx
      rcases List.mem_cons.mp hx with rfl | h
      · exact le_trans (foldl_min_le_init ys (Nat.min a x)) (Nat.min_le_right a x)
      · exact ih (Nat.min a y) x h

theorem listMin_le {l : List Nat} {x : Nat} (hx : x ∈ l) : listMin l ≤ x := by
  cases l with
  | nil => cases hx
  | cons y ys =>
      rcases List.mem_cons.mp hx with rfl | h
      · exact foldl_min_le_init ys x
      · exact foldl_min_le_mem ys y x h

theorem foldl_max_ge_init : ∀ (l : List Nat) (a : Nat), a ≤ l.foldl Nat.max a := by
  intro l
  induction l with
  | nil => intro a; simp
  | cons x xs ih => intro a; exact le_trans (Nat.le_max_left a x) (ih (Nat.max a x))

theorem foldl_max_ge_mem : ∀ (l : List Nat) (a x : Nat), x ∈ l → x ≤ l.foldl Nat.max a := by
  intro l
  induction l with
  | nil => intro a x hx; cases hx
  | cons y ys ih =>
      intro a x hx
      rcases List.mem_cons.mp hx with rfl | h
      · exact le_trans (Nat.le_max_right a x) (foldl_max_ge_init ys (Nat.max a x))
      · exact ih (Nat.max a y) x h

theorem le_listMax {l : List Nat} {x : Nat} (hx : x ∈ l) : x ≤ listMax l := by
  cases l with
  | nil => cases hx
  | cons y ys =>
      rcases List.mem_cons.mp hx with rfl | h
      · exact foldl_max_ge_init ys x
      · exact foldl_max_ge_mem ys y x h

theorem filterMap_eq_map_of_some {α β : Type} (f : α → Option β) (g : α → β) :
    ∀ (l : List α), (∀ x ∈ l, f x = some (g x)) → l.filterMap f = l.map g := by
  intro l
  induction l with
  | nil => intro _; simp
  | cons x xs ih =>
      intro h
      rw [List.filterMap_cons, h x (by simp)]
      rw [ih (fun y hy => h y (by simp [hy]))]
      simp

/-! ## Claim C3: delete_trip does not touch packing_items -/

/-- A store holding one trip that owns one row of every kind, including a
packing item. -/
def exDB3 : DB :=
  { seq := 10
    trips := [{ id := 1, destination := "Rome", start_date := 738885,
                end_date := 738886, travel_style := "Flexible" }]
    itinerary := [{ id := 2, trip_id := 1, day_number := 1, date := 738885 },
                  { id := 3, trip_id := 1, day_number := 2, date := 738886 }]
    day_items := [{ id := 4, itinerary_id := 2, category := "place",
                    name := "Colosseum", checked := true }]
    trip_stops := [{ id := 5, trip_id := 1, name := "Rome",
                     start_date := 738885, end_date := 738886 }]
    budget_items := [{ id := 6, trip_id := 1, label := "Hotel",
                       estimated_cost := 100, actual_cost := 0 }]
    packing_items := [{ id := 7, trip_id := 1, category := "Essentials",
                        label := "Passport / ID", checked := false }] }

/-- C3: deleting a trip removes its days, their checklist items, its
stops and its budget items, but the trip's packing item survives the
deletion - the source has no DELETE for packing_items, so a row owned by
the trip remains, contradicting the claimed full cascade. -/
theorem c3_delete_trip_skips_packing :
    (delete_trip exDB3 1).trips = []
      ∧ (delete_trip exDB3 1).itinerary = []
      ∧ (delete_trip exDB3 1).day_items = []
      ∧ (delete_trip exDB3 1).trip_stops = []
      ∧ (delete_trip exDB3 1).budget_items = []
      ∧ (delete_trip exDB3 1).packing_items
          = [{ id := 7, trip_id := 1, category := "Essentials",
               label := "Passport / ID", checked := false }] := by
  refine ⟨rfl, rfl, rfl, rfl, rfl, rfl⟩

/-! ## Claim C5: parsing of the selected column -/

/-- C5 counterexample: the code strips surrounding whitespace before the
token comparison, so the value " 0" - which is not, case-insensitively,
one of the four tokens - still parses to unchecked, against the claim
that every such value parses to checked. -/
theorem c5_counterexample :
    parseSelected (some " 0") = false ∧ claimSelected (some " 0") = true := by
  decide

/-- C5 (amended): the selected column parses to unchecked exactly when
its value, after stripping surrounding whitespace, is case-insensitively
one of the tokens 0, false, no, n; every other value, including the empty
string and unrecognized tokens, parses to checked. -/
theorem c5_selected_parsing :
    (∀ raw : Option String,
        parseSelected raw = false ↔
          (pyLower (pyStrip (raw.getD "")) = "0" ∨ pyLower (pyStrip (raw.getD "")) = "false"
            ∨ pyLower (pyStrip (raw.getD "")) = "no" ∨ pyLower (pyStrip (raw.getD "")) = "n"))
      ∧ parseSelected (some "0") = false ∧ parseSelected (some "false") = false
      ∧ parseSelected (some "No") = false ∧ parseSelected (some "n") = false
      ∧ parseSelected none = true ∧ parseSelected (some "") = true
      ∧ parseSelected (some "1") = true ∧ parseSelected (some "yes") = true
      ∧ parseSelected (some "true") = true ∧ parseSelected (some "maybe") = true := by
  refine ⟨?_, by decide, by decide, by decide, by decide, by decide,
    by decide, by decide, by decide, by decide, by decide⟩
  intro raw
  simp only [parseSelected, Bool.not_eq_false', Bool.or_eq_true, beq_iff_eq]
  tauto

/-! ## Claim C2: hotel filtering for display -/

/-- A stop resolving the example day's date to the location Paris. -/
def exStop2 : Stop :=
  { id := 1, trip_id := 1, name := "Paris", start_date := 100, end_date := 102 }

/-- The example day. -/
def exDay2 : DayRow := { id := 5, trip_id := 1, day_number := 2, date := 101 }

/-- An unchecked, visible hotel item whose name contains the location. -/
def exHotel2 : DayItem :=
  { id := 9, itinerary_id := 5, category := "hotel", name := "Paris Marriott",
    checked := false }

/-- C2 counterexample: the displayed hotel list is not computed from the
day's checked hotel items - an unchecked hotel item whose name contains
the resolved location is retained by the code, while the claim's
checked-only computation retains nothing. -/
theorem c2_counterexample :
    hotelsFilteredForDay [exStop2] [exHotel2] exDay2 = [exHotel2]
      ∧ claimHotelsRetained [exStop2] [exHotel2] exDay2 = []
      ∧ exHotel2.checked = false := by
  decide

/-- C2 (amended): the hotel list retained for display is computed from
the day's visible (non-hidden) hotel items regardless of their checked
flag: when a non-empty location resolves for the day's date, exactly
those whose name contains it as a case-insensitive substring are
retained; otherwise all of them are. -/
theorem c2_hotel_filter_visible_items :
    ∀ (stops : List Stop) (items : List DayItem) (day : DayRow) (h : DayItem),
      h ∈ hotelsFilteredForDay stops items day ↔
        (h ∈ items ∧ h.hidden = false ∧ h.itinerary_id = day.id ∧ h.category = "hotel"
          ∧ ∀ loc, locationByDate stops day.date = some loc → loc ≠ "" →
              substrCI loc h.name = true) := by
  intro stops items day h
  unfold hotelsFilteredForDay
  cases hloc : locationByDate stops day.date with
  | none =>
      simp only [hloc, itemsForDay, List.mem_filter, Bool.and_eq_true, beq_iff_eq,
        Bool.not_eq_true', and_assoc]
      constructor
      · intro hp
        exact ⟨hp.1, hp.2.1, hp.2.2.1, hp.2.2.2, fun loc hcon => by cases hcon⟩
      · intro hp
        exact ⟨hp.1, hp.2.1, hp.2.2.1, hp.2.2.2.1⟩
  | some loc =>
      simp only [hloc]
      by_cases hl : loc = ""
      · rw [if_pos hl]
        simp only [itemsForDay, List.mem_filter, Bool.and_eq_true, beq_iff_eq,
          Bool.not_eq_true', and_assoc]
        constructor
        · intro hp
          refine ⟨hp.1, hp.2.1, hp.2.2.1, hp.2.2.2, fun loc2 hcon hne => ?_⟩
          rw [Option.some.injEq] at hcon
          exact absurd (hcon ▸ hl) hne
        · intro hp
          exact ⟨hp.1, hp.2.1, hp.2.2.1, hp.2.2.2.1⟩
      · rw [if_neg hl]
        simp only [itemsForDay, List.mem_filter, Bool.and_eq_true, beq_iff_eq,
          Bool.not_eq_true', and_assoc]
        constructor
        · intro hp
          refine ⟨hp.1, hp.2.1, hp.2.2.1, hp.2.2.2.1, fun loc2 hcon _ => ?_⟩
          rw [Option.some.injEq] at hcon
          exact hcon ▸ hp.2.2.2.2
        · intro hp
          exact ⟨hp.1, hp.2.1, hp.2.2.1, hp.2.2.2.1, hp.2.2.2.2 loc rfl hl⟩

/-! ## Claim C7: the stop-to-date mapping -/

theorem locMap_eq_flatMap (stops : List Stop) :
    locMap stops
      = stops.flatMap
          (fun st => (date_range st.start_date st.end_date).map (fun d => (d, st.name))) := by
  have hgen : ∀ (l : List Stop) (init : List (Nat × String)),
      l.foldl
          (fun m st => m ++ (date_range st.start_date st.end_date).map (fun d => (d, st.name)))
          init
        = init
            ++ l.flatMap
                (fun st => (date_range st.start_date st.end_date).map (fun d => (d, st.name))) := by
    intro l
    induction l with
    | nil => intro init; simp
    | cons x xs ih => intro init; simp [ih, List.flatMap_cons, List.append_assoc]
  simpa using hgen stops []

theorem lookupLast_append (a b : List (Nat × String)) (d : Nat) :
    lookupLast (a ++ b) d = (lookupLast b d).or (lookupLast a d) := by
  unfold lookupLast
  rw [List.reverse_append, List.find?_append]
  cases List.find? (fun p => p.1 == d) b.reverse <;> simp

theorem lookupLast_block (st : Stop) (d : Nat) :
    lookupLast ((date_range st.start_date st.end_date).map (fun x => (x, st.name))) d
      = if st.start_date ≤ d ∧ d ≤ st.end_date then some st.name else none := by
  unfold lookupLast
  rw [← List.map_reverse, List.find?_map]
  by_cases hcov : st.start_date ≤ d ∧ d ≤ st.end_date
  · rw [if_pos hcov]
    have hmem : d ∈ (date_range st.start_date st.end_date).reverse := by
      rw [List.mem_reverse]
      unfold date_range
      rw [List.mem_range'_1]
      omega
    cases hf : List.find? ((fun p => p.1 == d) ∘ (fun x => (x, st.name)))
        (date_range st.start_date st.end_date).reverse with
    | none =>
        rw [List.find?_eq_none] at hf
        have := hf d hmem
        simp at this
    | some x =>
        have hx := List.find?_some hf
        simp at hx
        subst hx
        simp
  · rw [if_neg hcov]
    have hnone : List.find? ((fun p => p.1 == d) ∘ (fun x => (x, st.name)))
        (date_range st.start_date st.end_date).reverse = none := by
      rw [List.find?_eq_none]
      intro x hx
      rw [List.mem_reverse] at hx
      unfold date_range at hx
      rw [List.mem_range'_1] at hx
      simp only [Function.comp_apply, beq_iff_eq]
      omega
    rw [hnone]
    rfl

theorem lookupLast_flatMap_none :
    ∀ (stops : List Stop) (d : Nat),
      (∀ st ∈ stops, ¬(st.start_date ≤ d ∧ d ≤ st.end_date)) →
      lookupLast
          (stops.flatMap
            (fun st => (date_range st.start_date st.end_date).map (fun x => (x, st.name)))) d
        = none := by
  intro stops
  induction stops with
  | nil => intro d _; rfl
  | cons x xs ih =>
      intro d h
      rw [List.flatMap_cons, lookupLast_append]
      rw [ih d (fun st hst => h st (by simp [hst]))]
      rw [lookupLast_block, if_neg (h x (by simp))]
      rfl

/-- Stop A covering 2024-01-01 .. 2024-01-03. -/
def stopA7 : Stop :=
  { id := 1, trip_id := 1, name := "A City",
    start_date := toOrdinal 2024 1 1, end_date := toOrdinal 2024 1 3 }

/-- Stop B covering 2024-01-03 .. 2024-01-05, listed after A. -/
def stopB7 : Stop :=
  { id := 2, trip_id := 1, name := "B City",
    start_date := toOrdinal 2024 1 3, end_date := toOrdinal 2024 1 5 }

/-- C7: the stop-to-date mapping is last-write-wins in stop list order: a
date covered by no stop is absent (and the caller then defaults to the
trip's destination); a date covered by a stop resolves to the name of the
last covering stop; in particular with stops A (Jan 1-3) and B (Jan 3-5)
in that order, 2024-01-03 resolves to B's name. -/
theorem c7_stop_mapping :
    (∀ (stops : List Stop) (d : Nat),
        (∀ st ∈ stops, ¬(st.start_date ≤ d ∧ d ≤ st.end_date)) →
        locationByDate stops d = none)
      ∧ (∀ (pre : List Stop) (st : Stop) (post : List Stop) (d : Nat),
          st.start_date ≤ d → d ≤ st.end_date →
          (∀ st2 ∈ post, ¬(st2.start_date ≤ d ∧ d ≤ st2.end_date)) →
          locationByDate (pre ++ st :: post) d = some st.name)
      ∧ (∀ (stops : List Stop) (dest : String) (d : Nat),
          (∀ st ∈ stops, ¬(st.start_date ≤ d ∧ d ≤ st.end_date)) →
          locationOr stops dest d = dest)
      ∧ locationByDate [stopA7, stopB7] (toOrdinal 2024 1 3) = some "B City" := by
  have habsent : ∀ (stops : List Stop) (d : Nat),
      (∀ st ∈ stops, ¬(st.start_date ≤ d ∧ d ≤ st.end_date)) →
      locationByDate stops d = none := by
    intro stops d h
    unfold locationByDate
    rw [locMap_eq_flatMap]
    exact lookupLast_flatMap_none stops d h
  have hwins : ∀ (pre : List Stop) (st : Stop) (post : List Stop) (d : Nat),
      st.start_date ≤ d → d ≤ st.end_date →
      (∀ st2 ∈ post, ¬(st2.start_date ≤ d ∧ d ≤ st2.end_date)) →
      locationByDate (pre ++ st :: post) d = some st.name := by
    intro pre st post d h1 h2 hpost
    unfold locationByDate
    rw [locMap_eq_flatMap, List.flatMap_append, List.flatMap_cons, lookupLast_append,
      lookupLast_append, lookupLast_flatMap_none post d hpost, lookupLast_block,
      if_pos ⟨h1, h2⟩]
    rfl
  refine ⟨habsent, hwins, ?_, ?_⟩
  · intro stops dest d h
    unfold locationOr
    rw [habsent stops d h]
    rfl
  · have := hwins [stopA7] stopB7 [] (toOrdinal 2024 1 3) (by decide) (by decide) (by simp)
    simpa using this

/-- C7 witness: the uncovered date 2024-01-09 falls back to the trip
destination. -/
theorem c7_witness :
    locationOr [stopA7, stopB7] "Japan" (toOrdinal 2024 1 9) = "Japan" := by
  apply c7_stop_mapping.2.2.1
  intro st hst
  rcases List.mem_cons.mp hst with rfl | hst2
  · decide
  · rcases List.mem_cons.mp hst2 with rfl | h
    · decide
    · cases h

/-! ## Claim C10: generate_itinerary fills only empty descriptions -/

/-- C10: generate_itinerary leaves every non-empty description unchanged,
fills every empty (NULL or blank-string) description with the
style-derived text, and never modifies titles or map links. -/
theorem c10_generate_fills_only_empty :
    ∀ (trip : Trip) (days : List DayRow),
      List.Forall₂ (fun d d2 =>
          d2.morning_title = d.morning_title ∧ d2.afternoon_title = d.afternoon_title
            ∧ d2.evening_title = d.evening_title
            ∧ d2.morning_map_link = d.morning_map_link
            ∧ d2.afternoon_map_link = d.afternoon_map_link
            ∧ d2.evening_map_link = d.evening_map_link
            ∧ (truthy d.morning_description = true →
                 d2.morning_description = d.morning_description)
            ∧ (truthy d.morning_description = false →
                 d2.morning_description = some (aiDayTexts trip).1)
            ∧ (truthy d.afternoon_description = true →
                 d2.afternoon_description = d.afternoon_description)
            ∧ (truthy d.afternoon_description = false →
                 d2.afternoon_description = some (aiDayTexts trip).2.1)
            ∧ (truthy d.evening_description = true →
                 d2.evening_description = d.evening_description)
            ∧ (truthy d.evening_description = false →
                 d2.evening_description = some (aiDayTexts trip).2.2))
        days (generateItineraryDays trip days) := by
  intro trip days
  simp only [generateItineraryDays]
  rw [List.forall₂_map_right_iff, List.forall₂_same]
  intro d _
  by_cases hm : truthy d.morning_description = true <;>
    by_cases ha : truthy d.afternoon_description = true <;>
      by_cases he : truthy d.evening_description = true <;>
        simp_all

/-- Example trip for the C10 witness. -/
def exTrip10 : Trip :=
  { id := 3, destination := "Kyoto", start_date := 1000, end_date := 1001,
    travel_style := "Foodie" }

/-- Example days for the C10 witness: day one has a morning description,
day two has none. -/
def exDays10 : List DayRow :=
  [{ id := 11, trip_id := 3, day_number := 1, date := 1000,
     morning_title := some "Morning", morning_description := some "Temple walk" },
   { id := 12, trip_id := 3, day_number := 2, date := 1001 }]

/-- C10 witness: the theorem applied to the example trip and days. -/
theorem c10_witness :
    List.Forall₂ (fun d d2 =>
        d2.morning_title = d.morning_title ∧ d2.afternoon_title = d.afternoon_title
          ∧ d2.evening_title = d.evening_title
          ∧ d2.morning_map_link = d.morning_map_link
          ∧ d2.afternoon_map_link = d.afternoon_map_link
          ∧ d2.evening_map_link = d.evening_map_link
          ∧ (truthy d.morning_description = true →
               d2.morning_description = d.morning_description)
          ∧ (truthy d.morning_description = false →
               d2.morning_description = some (aiDayTexts exTrip10).1)
          ∧ (truthy d.afternoon_description = true →
               d2.afternoon_description = d.afternoon_description)
          ∧ (truthy d.afternoon_description = false →
               d2.afternoon_description = some (aiDayTexts exTrip10).2.1)
          ∧ (truthy d.evening_description = true →
               d2.evening_description = d.evening_description)
          ∧ (truthy d.evening_description = false →
               d2.evening_description = some (aiDayTexts exTrip10).2.2))
      exDays10 (generateItineraryDays exTrip10 exDays10) :=
  c10_generate_fills_only_empty exTrip10 exDays10

/-! ## Claim C6: the completion percent -/

theorem flagStep_foldl (l : List DayItem) : ∀ (f : MealFlags),
    l.foldl flagStep f =
      ⟨f.breakfast || l.any (fun it => it.checked && (lowerSlot it == "breakfast")),
       f.lunch || l.any (fun it => it.checked && (lowerSlot it == "lunch")),
       f.dinner || l.any (fun it => it.checked && (lowerSlot it == "dinner"))⟩ := by
  induction l with
  | nil => intro f; simp
  | cons x xs ih =>
      intro f
      rw [List.foldl_cons, ih]
      unfold flagStep
      by_cases h1 : lowerSlot x = "breakfast" ∧ x.checked
      · rw [if_pos h1]
        simp [List.any_cons, h1.1, h1.2]
      · rw [if_neg h1]
        by_cases h2 : lowerSlot x = "lunch" ∧ x.checked
        · rw [if_pos h2]
          simp [List.any_cons, h2.1, h2.2]
        · rw [if_neg h2]
          by_cases h3 : lowerSlot x = "dinner" ∧ x.checked
          · rw [if_pos h3]
            simp [List.any_cons, h3.1, h3.2]
          · rw [if_neg h3]
            have hgen : ∀ (s : String), ¬(lowerSlot x = s ∧ x.checked) →
                (x.checked && (lowerSlot x == s)) = false := by
              intro s hn
              by_cases hs : lowerSlot x = s
              · have hcf : x.checked = false := by
                  cases hcc : x.checked
                  · rfl
                  · exact absurd ⟨hs, hcc⟩ hn
                rw [hcf, Bool.false_and]
              · have hbf : (lowerSlot x == s) = false := beq_eq_false_iff_ne.mpr hs
                rw [hbf, Bool.and_false]
            have hb := hgen "breakfast" h1
            have hl := hgen "lunch" h2
            have hd := hgen "dinner" h3
            simp [List.any_cons, hb, hl, hd]

theorem mealsPicked_eq_spec (items : List DayItem) (dayId : Nat) :
    mealsPicked (itemsForDay items dayId "restaurant") = mealsPickedSpec items dayId := by
  unfold mealsPicked mealsPickedSpec
  rw [flagStep_foldl]
  simp only [List.countP_cons, List.countP_nil, Bool.false_or]
  cases hb : (itemsForDay items dayId "restaurant").any
      (fun it => it.checked && (lowerSlot it == "breakfast")) <;>
    cases hl : (itemsForDay items dayId "restaurant").any
        (fun it => it.checked && (lowerSlot it == "lunch")) <;>
      cases hd : (itemsForDay items dayId "restaurant").any
          (fun it => it.checked && (lowerSlot it == "dinner")) <;>
        simp [hb, hl, hd]

/-- Example day for C6: all three slot descriptions filled. -/
def exDay6 : DayRow :=
  { id := 21, trip_id := 4, day_number := 1, date := 500,
    morning_description := some "Market tour",
    afternoon_description := some "Castle",
    evening_description := some "River walk" }

/-- Example items for C6: breakfast and lunch checked, dinner present but
unchecked, and a checked snack that must contribute nothing. -/
def exItems6 : List DayItem :=
  [{ id := 31, itinerary_id := 21, category := "restaurant", name := "Cafe One",
     checked := true, slot := some "breakfast" },
   { id := 32, itinerary_id := 21, category := "restaurant", name := "Bistro Two",
     checked := true, slot := some "lunch" },
   { id := 33, itinerary_id := 21, category := "restaurant", name := "Diner Three",
     checked := false, slot := some "dinner" },
   { id := 34, itinerary_id := 21, category := "restaurant", name := "Snack Bar",
     checked := true, slot := some "snack" }]

/-- C6: the completion percent is round-to-nearest of
100 * (slots_filled + meals_picked) / 6, where meals_picked counts the
distinct meals among breakfast, lunch and dinner having a checked visible
restaurant item (snack items count nowhere); with all three slots filled
and exactly breakfast and lunch picked the percent is 83. -/
theorem c6_completion_percent :
    (∀ (items : List DayItem) (day : DayRow),
        dayCompletionPercent items day
          = roundRat (100 * (slotsFilled day + mealsPickedSpec items day.id)) 6)
      ∧ dayCompletionPercent exItems6 exDay6 = 83 := by
  constructor
  · intro items day
    unfold dayCompletionPercent pyRoundPct6 roundRat
    rw [mealsPicked_eq_spec]
    rw [show 2 * (100 * (slotsFilled day + mealsPickedSpec items day.id))
          = 200 * (slotsFilled day + mealsPickedSpec items day.id) by ring]
  · decide

/-! ## Claim C8: merge-into-existing CSV import -/

/-- C8: out-of-range rows are dropped before any stop or item derivation
(appending rows whose parsed date is out of range changes nothing), and
when no parsed row is in range the operation reports an error and leaves
the store untouched. -/
theorem c8_merge_range_filter :
    (∀ (db : DB) (tripId : Nat) (trip : Trip) (raws : List RawRow),
        db.trips.find? (fun t => t.id == tripId) = some trip →
        (∀ r ∈ raws.filterMap parseRow,
            ¬(trip.start_date ≤ r.date ∧ r.date ≤ trip.end_date)) →
        csvImportIntoTrip db tripId raws = (db, true))
      ∧ (∀ (db : DB) (tripId : Nat) (trip : Trip) (raws extra : List RawRow),
          db.trips.find? (fun t => t.id == tripId) = some trip →
          (∃ r ∈ raws.filterMap parseRow,
              trip.start_date ≤ r.date ∧ r.date ≤ trip.end_date) →
          (∀ r ∈ extra.filterMap parseRow,
              ¬(trip.start_date ≤ r.date ∧ r.date ≤ trip.end_date)) →
          csvImportIntoTrip db tripId (raws ++ extra)
            = csvImportIntoTrip db tripId raws) := by
  constructor
  · intro db tripId trip raws hfind hout
    simp only [csvImportIntoTrip, hfind]
    by_cases hp : raws.filterMap parseRow = []
    · simp [hp]
    · rw [if_neg hp]
      have hir : inRangeRows trip (raws.filterMap parseRow) = [] := by
        unfold inRangeRows
        rw [List.filter_eq_nil_iff]
        intro r hr
        simp only [Bool.and_eq_true, decide_eq_true_eq]
        exact hout r hr
      rw [hir]
      simp
  · intro db tripId trip raws extra hfind hin hout
    obtain ⟨r0, hr0mem, hr0⟩ := hin
    simp only [csvImportIntoTrip, hfind, List.filterMap_append]
    have hne1 : raws.filterMap parseRow ≠ [] := List.ne_nil_of_mem hr0mem
    have hne2 : raws.filterMap parseRow ++ extra.filterMap parseRow ≠ [] := by
      intro hcon
      exact hne1 (List.append_eq_nil.mp hcon).1
    rw [if_neg hne2, if_neg hne1]
    have hfe : inRangeRows trip (raws.filterMap parseRow ++ extra.filterMap parseRow)
        = inRangeRows trip (raws.filterMap parseRow) := by
      unfold inRangeRows
      rw [List.filter_append]
      have hz : (extra.filterMap parseRow).filter
          (fun r => decide (trip.start_date ≤ r.date) && decide (r.date ≤ trip.end_date))
          = [] := by
        rw [List.filter_eq_nil_iff]
        intro r hr
        simp only [Bool.and_eq_true, decide_eq_true_eq]
        exact hout r hr
      rw [hz, List.append_nil]
    rw [hfe]

/-- The trip the C8 witness merges into. -/
def exTrip8 : Trip :=
  { id := 1, destination := "Oslo", start_date := 2000, end_date := 2002,
    travel_style := "Flexible" }

/-- A store containing the witness trip and its two itinerary days. -/
def exDB8 : DB :=
  { seq := 5
    trips := [exTrip8]
    itinerary := [{ id := 2, trip_id := 1, day_number := 1, date := 2000 },
                  { id := 3, trip_id := 1, day_number := 2, date := 2001 }]
    day_items := []
    trip_stops := []
    budget_items := []
    packing_items := [] }

/-- CSV rows for the C8 witness: one valid row dated before the trip and
one row without a parseable date. -/
def exRaws8 : List RawRow :=
  [{ date := some 1990, name := some "Old Fort", category := some "place" },
   { date := none, name := some "No Date" }]

/-- C8 witness: merging a CSV whose rows all fall outside the trip's
dates reports an error and leaves the store unchanged. -/
theorem c8_witness : csvImportIntoTrip exDB8 1 exRaws8 = (exDB8, true) :=
  c8_merge_range_filter.1 exDB8 1 exTrip8 exRaws8 (by decide) (by decide)

/-! ## Claim C1: date-range reconciliation of edit_trip -/

theorem walkAux_map_date (ex : List DayRow) (tripId : Nat) :
    ∀ (k cur dn nid : Nat),
      ((walkAux ex tripId k cur dn nid).1).map (fun r => r.date) = List.range' cur k := by
  intro k
  induction k with
  | zero => intro cur dn nid; rfl
  | succ k ih =>
      intro cur dn nid
      rw [List.range'_succ]
      cases hb : byDate ex cur with
      | some row =>
          simp only [walkAux, hb]
          simp [ih]
      | none =>
          simp only [walkAux, hb]
          simp [ih, freshDay]

theorem walkAux_map_day_number (ex : List DayRow) (tripId : Nat) :
    ∀ (k cur dn nid : Nat),
      ((walkAux ex tripId k cur dn nid).1).map (fun r => r.day_number)
        = List.range' dn k := by
  intro k
  induction k with
  | zero => intro cur dn nid; rfl
  | succ k ih =>
      intro cur dn nid
      rw [List.range'_succ]
      cases hb : byDate ex cur with
      | some row =>
          simp only [walkAux, hb]
          simp [ih]
      | none =>
          simp only [walkAux, hb]
          simp [ih, freshDay]

theorem walkAux_used_of (ex : List DayRow) (tripId : Nat) :
    ∀ (k cur dn nid d : Nat) (row : DayRow),
      cur ≤ d → d < cur + k → byDate ex d = some row →
      row.id ∈ (walkAux ex tripId k cur dn nid).2 := by
  intro k
  induction k with
  | zero => intro cur dn nid d row h1 h2 _; omega
  | succ k ih =>
      intro cur dn nid d row h1 h2 hrow
      by_cases hd : d = cur
      · subst hd
        simp only [walkAux, hrow]
        exact List.mem_cons_self _ _
      · cases hb : byDate ex cur with
        | some row2 =>
            simp only [walkAux, hb]
            exact List.mem_cons_of_mem _
              (ih (cur + 1) (dn + 1) nid d row (by omega) (by omega) hrow)
        | none =>
            simp only [walkAux, hb]
            exact ih (cur + 1) (dn + 1) (nid + 1) d row (by omega) (by omega) hrow

theorem walkAux_used_src (ex : List DayRow) (tripId : Nat) :
    ∀ (k cur dn nid a : Nat),
      a ∈ (walkAux ex tripId k cur dn nid).2 →
      ∃ d row, cur ≤ d ∧ d < cur + k ∧ byDate ex d = some row ∧ row.id = a := by
  intro k
  induction k with
  | zero => intro cur dn nid a h; simp [walkAux] at h
  | succ k ih =>
      intro cur dn nid a h
      cases hb : byDate ex cur with
      | some row =>
          simp only [walkAux, hb] at h
          rcases List.mem_cons.mp h with rfl | h2
          · exact ⟨cur, row, le_refl _, by omega, hb, rfl⟩
          · obtain ⟨d, row2, hd1, hd2, hrow, hid⟩ := ih (cur + 1) (dn + 1) nid a h2
            exact ⟨d, row2, by omega, by omega, hrow, hid⟩
      | none =>
          simp only [walkAux, hb] at h
          obtain ⟨d, row2, hd1, hd2, hrow, hid⟩ := ih (cur + 1) (dn + 1) (nid + 1) a h
          exact ⟨d, row2, by omega, by omega, hrow, hid⟩

theorem walkAux_reuses (ex : List DayRow) (tripId : Nat) :
    ∀ (k cur dn nid d : Nat) (row : DayRow),
      cur ≤ d → d < cur + k → byDate ex d = some row →
      ∃ r2 ∈ (walkAux ex tripId k cur dn nid).1,
        r2.id = row.id ∧ r2.date = d ∧ slotContent r2 = slotContent row := by
  intro k
  induction k with
  | zero => intro cur dn nid d row h1 h2 _; omega
  | succ k ih =>
      intro cur dn nid d row h1 h2 hrow
      by_cases hd : d = cur
      · subst hd
        simp only [walkAux, hrow]
        exact ⟨{ row with day_number := dn, date := d },
          List.mem_cons_self _ _, rfl, rfl, rfl⟩
      · cases hb : byDate ex cur with
        | some row2 =>
            simp only [walkAux, hb]
            obtain ⟨r2, hmem, hprops⟩ :=
              ih (cur + 1) (dn + 1) nid d row (by omega) (by omega) hrow
            exact ⟨r2, List.mem_cons_of_mem _ hmem, hprops⟩
        | none =>
            simp only [walkAux, hb]
            obtain ⟨r2, hmem, hprops⟩ :=
              ih (cur + 1) (dn + 1) (nid + 1) d row (by omega) (by omega) hrow
            exact ⟨r2, List.mem_cons_of_mem _ hmem, hprops⟩

/-- C1: reconciling a trip's days to a valid new range produces exactly
N = new_end - new_start + 1 days whose dates are the new range in order
and whose day numbers are contiguous 1..N (hence strictly increasing with
date, no duplicate dates); every existing day with a date inside the new
range is reused with its identity and slot content and is not deleted;
exactly the existing days with dates outside the new range are deleted;
and a checklist item survives the deletion exactly when its day does. -/
theorem c1_reconcile (ex : List DayRow) (items : List DayItem)
    (tripId s e nid : Nat) (hse : s ≤ e)
    (hdates : (ex.map (fun r => r.date)).Nodup)
    (hids : (ex.map (fun r => r.id)).Nodup) :
    ((reconcile ex tripId s e nid).days.map (fun r => r.date) = date_range s e
        ∧ (reconcile ex tripId s e nid).days.map (fun r => r.day_number)
            = List.range' 1 (e + 1 - s)
        ∧ (reconcile ex tripId s e nid).days.length = e + 1 - s)
      ∧ (∀ r ∈ ex, s ≤ r.date → r.date ≤ e →
          (∃ r2 ∈ (reconcile ex tripId s e nid).days,
              r2.id = r.id ∧ r2.date = r.date ∧ slotContent r2 = slotContent r)
            ∧ r.id ∉ (reconcile ex tripId s e nid).removed_ids)
      ∧ (∀ r ∈ ex, (r.date < s ∨ e < r.date) →
          r.id ∈ (reconcile ex tripId s e nid).removed_ids)
      ∧ (∀ a ∈ (reconcile ex tripId s e nid).removed_ids,
          ∃ r ∈ ex, r.id = a ∧ (r.date < s ∨ e < r.date))
      ∧ (∀ it ∈ items,
          (it ∈ deleteItemsOfDays items (reconcile ex tripId s e nid).removed_ids
            ↔ it.itinerary_id ∉ (reconcile ex tripId s e nid).removed_ids)) := by
  have hdaysr : (reconcile ex tripId s e nid).days
      = (walkAux ex tripId (e + 1 - s) s 1 nid).1 := rfl
  have hremr : (reconcile ex tripId s e nid).removed_ids
      = (ex.filter
          (fun r => !((walkAux ex tripId (e + 1 - s) s 1 nid).2.contains r.id))).map
          (fun r => r.id) := rfl
  have hinj : ∀ x ∈ ex, ∀ y ∈ ex, x.id = y.id → x = y := by
    intro x hx y hy hxy
    exact List.inj_on_of_nodup_map hids hx hy hxy
  have hsrc : ∀ a ∈ (reconcile ex tripId s e nid).removed_ids,
      ∃ r ∈ ex, r.id = a ∧ (r.date < s ∨ e < r.date) := by
    intro a ha
    rw [hremr] at ha
    obtain ⟨r, hrf, rfl⟩ := List.mem_map.mp ha
    obtain ⟨hrex, hrp⟩ := List.mem_filter.mp hrf
    refine ⟨r, hrex, rfl, ?_⟩
    by_contra hcon
    push_neg at hcon
    have hbd : byDate ex r.date = some r := byDate_self hdates hrex
    have hmem : r.id ∈ (walkAux ex tripId (e + 1 - s) s 1 nid).2 :=
      walkAux_used_of ex tripId (e + 1 - s) s 1 nid r.date r
        (by omega) (by omega) hbd
    rw [Bool.not_eq_true', ← Bool.not_eq_true] at hrp
    exact hrp (List.elem_iff.mpr hmem)
  have houtside : ∀ r ∈ ex, (r.date < s ∨ e < r.date) →
      r.id ∈ (reconcile ex tripId s e nid).removed_ids := by
    intro r hrex hout
    rw [hremr]
    apply List.mem_map.mpr
    refine ⟨r, List.mem_filter.mpr ⟨hrex, ?_⟩, rfl⟩
    rw [Bool.not_eq_true']
    rw [← Bool.not_eq_true]
    intro hcon
    have hmem := List.elem_iff.mp hcon
    obtain ⟨d, row, hd1, hd2, hrow, hid⟩ :=
      walkAux_used_src ex tripId (e + 1 - s) s 1 nid r.id hmem
    obtain ⟨hrowex, hrowd⟩ := byDate_mem hrow
    have : row = r := hinj row hrowex r hrex hid
    subst this
    omega
  refine ⟨⟨?_, ?_, ?_⟩, ?_, houtside, hsrc, ?_⟩
  · rw [hdaysr]
    exact walkAux_map_date ex tripId (e + 1 - s) s 1 nid
  · rw [hdaysr]
    exact walkAux_map_day_number ex tripId (e + 1 - s) s 1 nid
  · rw [hdaysr]
    have hlen := congrArg List.length (walkAux_map_date ex tripId (e + 1 - s) s 1 nid)
    simpa using hlen
  · intro r hrex h1 h2
    have hbd : byDate ex r.date = some r := byDate_self hdates hrex
    constructor
    · rw [hdaysr]
      exact walkAux_reuses ex tripId (e + 1 - s) s 1 nid r.date r (by omega) (by omega) hbd
    · intro hcon
      obtain ⟨r3, hr3ex, hr3id, hr3out⟩ := hsrc r.id hcon
      have : r3 = r := hinj r3 hr3ex r hrex hr3id
      subst this
      omega
  · intro it hit
    unfold deleteItemsOfDays
    rw [List.mem_filter]
    constructor
    · intro h
      rw [Bool.not_eq_true', ← Bool.not_eq_true] at *
      intro hcon
      exact h.2 (List.elem_iff.mpr hcon)
    · intro h
      refine ⟨hit, ?_⟩
      rw [Bool.not_eq_true', ← Bool.not_eq_true]
      intro hcon
      exact h (List.elem_iff.mp hcon)

/-- First existing day of the C1 witness (date outside the new range). -/
def exDay1a : DayRow :=
  { id := 1, trip_id := 7, day_number := 1, date := 10,
    morning_title := some "Old castle" }

/-- Second existing day of the C1 witness (date inside the new range). -/
def exDay1b : DayRow := { id := 2, trip_id := 7, day_number := 2, date := 11 }

/-- Existing days for the C1 witness. -/
def exDays1 : List DayRow := [exDay1a, exDay1b]

/-- Existing checklist items for the C1 witness, one per day. -/
def exItems1 : List DayItem :=
  [{ id := 5, itinerary_id := 1, category := "place", name := "Castle", checked := true },
   { id := 6, itinerary_id := 2, category := "place", name := "Garden", checked := false }]

/-- C1 witness: reconciling the two example days to the new range 11..12
produces days dated 11 and 12. -/
theorem c1_witness :
    (reconcile exDays1 7 11 12 3).days.map (fun r => r.date) = date_range 11 12 :=
  (c1_reconcile exDays1 exItems1 7 11 12 3 (by decide) (by decide) (by decide)).1.1

/-! ## Claim C4: parse_date -/

theorem isDig_digitChar {j : Nat} (h : j < 10) : isDig (Nat.digitChar j) = true := by
  interval_cases j <;> decide

theorem digitVal_digitChar {j : Nat} (h : j < 10) : digitVal (Nat.digitChar j) = j := by
  interval_cases j <;> decide

theorem matchMonthDash_pad {m d : Nat} (hm1 : 1 ≤ m) (hm2 : m ≤ 12)
    (hd1 : 1 ≤ d) (hd2 : d ≤ 31) :
    matchMonthDash (pad2 m ++ '-' :: pad2 d) = some (m, d) := by
  interval_cases m <;> interval_cases d <;> decide

theorem parseDateChars_cons (c1 c2 c3 c4 c5 : Char) (rest : List Char) :
    parseDateChars (c1 :: c2 :: c3 :: c4 :: c5 :: rest)
      = if (c5 == '-') && isDig c1 && isDig c2 && isDig c3 && isDig c4 then
          match matchMonthDash rest with
          | some (m, d) =>
              let y := 1000 * digitVal c1 + 100 * digitVal c2 + 10 * digitVal c3
                + digitVal c4
              if validYmd y m d then some ⟨y, m, d⟩ else none
          | none => none
        else none := rfl

/-- C4 counterexample: parse_date succeeds on "2024-1-5", a string that
is not strict zero-padded YYYY-MM-DD text, against the claim that it
fails on every input other than strict YYYY-MM-DD text. -/
theorem c4_counterexample :
    parse_date "2024-1-5" = some ⟨2024, 1, 5⟩ ∧ strictYmdText "2024-1-5" = false := by
  decide

/-- C4 (amended): parse_date succeeds on the strict YYYY-MM-DD rendering
of every valid calendar date (year 1..9999) and returns that date; it
rejects strict-looking strings whose fields are not a valid date, and
malformed inputs such as a wrong separator, an out-of-range month,
non-date text, trailing characters or year zero - but it does not fail on
every non-strict input (see the counterexample: zero-padding of month and
day is not required). -/
theorem c4_parse_date_amended :
    (∀ y m d : Nat, 1 ≤ y → y ≤ 9999 → 1 ≤ m → m ≤ 12 → 1 ≤ d → d ≤ daysInMonth y m →
        parse_date (isoformat ⟨y, m, d⟩) = some ⟨y, m, d⟩)
      ∧ parse_date "2023-02-29" = none
      ∧ parse_date "2024/01/05" = none
      ∧ parse_date "2024-13-01" = none
      ∧ parse_date "not-a-date" = none
      ∧ parse_date "2024-01-05x" = none
      ∧ parse_date "0000-01-01" = none := by
  refine ⟨?_, by decide, by decide, by decide, by decide, by decide, by decide⟩
  intro y m d h1 h2 h3 h4 h5 h6
  have hd31 : d ≤ 31 := by
    refine le_trans h6 ?_
    unfold daysInMonth
    split_ifs <;> omega
  have hstep : parse_date (isoformat ⟨y, m, d⟩)
      = parseDateChars (Nat.digitChar (y / 1000 % 10) :: Nat.digitChar (y / 100 % 10)
          :: Nat.digitChar (y / 10 % 10) :: Nat.digitChar (y % 10)
          :: '-' :: (pad2 m ++ '-' :: pad2 d)) := rfl
  rw [hstep, parseDateChars_cons]
  have hcond : (('-' == '-') && isDig (Nat.digitChar (y / 1000 % 10))
      && isDig (Nat.digitChar (y / 100 % 10)) && isDig (Nat.digitChar (y / 10 % 10))
      && isDig (Nat.digitChar (y % 10))) = true := by
    rw [isDig_digitChar (Nat.mod_lt _ (by norm_num)),
      isDig_digitChar (Nat.mod_lt _ (by norm_num)),
      isDig_digitChar (Nat.mod_lt _ (by norm_num)),
      isDig_digitChar (Nat.mod_lt _ (by norm_num))]
    rfl
  rw [if_pos hcond, matchMonthDash_pad h3 h4 h5 hd31]
  have hy : 1000 * digitVal (Nat.digitChar (y / 1000 % 10))
      + 100 * digitVal (Nat.digitChar (y / 100 % 10))
      + 10 * digitVal (Nat.digitChar (y / 10 % 10))
      + digitVal (Nat.digitChar (y % 10)) = y := by
    rw [digitVal_digitChar (Nat.mod_lt _ (by norm_num)),
      digitVal_digitChar (Nat.mod_lt _ (by norm_num)),
      digitVal_digitChar (Nat.mod_lt _ (by norm_num)),
      digitVal_digitChar (Nat.mod_lt _ (by norm_num))]
    omega
  simp only [hy]
  have hv : validYmd y m d = true := by
    unfold validYmd
    simp only [Bool.and_eq_true, decide_eq_true_eq]
    exact ⟨⟨⟨⟨⟨h1, h2⟩, h3⟩, h4⟩, h5⟩, h6⟩
  rw [if_pos hv]

/-- C4 witness: the strict rendering of the leap day 2024-02-29 parses
back to itself. -/
theorem c4_witness : parse_date (isoformat ⟨2024, 2, 29⟩) = some ⟨2024, 2, 29⟩ :=
  c4_parse_date_amended.1 2024 2 29 (by decide) (by decide) (by decide) (by decide)
    (by decide) (by decide)

/-! ## Claim C9: CSV export / origination-import round trip -/

theorem flatMap_congr_mem {α β : Type} {l : List α} {f g : α → List β}
    (h : ∀ a ∈ l, f a = g a) : l.flatMap f = l.flatMap g := by
  induction l with
  | nil => rfl
  | cons x xs ih =>
      simp only [List.flatMap_cons, h x (by simp),
        ih (fun a ha => h a (by simp [ha]))]

theorem pyLower_pyStrip_todOf (it : DayItem) : pyLower (pyStrip (todOf it)) = todOf it := by
  simp only [todOf]
  split_ifs with h
  · rcases h.2 with hs | hs | hs <;> rw [hs] <;> decide
  · decide

theorem pyLower_pyStrip_mealOf (it : DayItem) :
    pyLower (pyStrip (mealOf it)) = mealOf it := by
  simp only [mealOf]
  split_ifs with h
  · rcases h.2 with hs | hs | hs | hs <;> rw [hs] <;> decide
  · decide

theorem parseSelected_checked (b : Bool) :
    parseSelected (some (if b then "1" else "0")) = b := by
  cases b <;> decide

theorem parseRow_exportRowOf (dayDate : Nat) (city : String) (it : DayItem)
    (hname : pyStrip it.name = it.name) (hnn : it.name ≠ "")
    (hcat : it.category = "place" ∨ it.category = "restaurant" ∨ it.category = "hotel") :
    parseRow (exportRowOf dayDate city it) = some (rowOfItem dayDate city it) := by
  have hcat2 : normCategory (pyLower (pyStrip it.category)) = it.category := by
    rcases hcat with h | h | h <;> rw [h] <;> decide
  simp only [parseRow, exportRowOf, Option.getD_some, hname]
  rw [if_neg hnn]
  rw [pyLower_pyStrip_todOf, pyLower_pyStrip_mealOf, hcat2, parseSelected_checked]
  rfl

theorem filterMap_parseRow_exportRows (trip : Trip) (days : List DayRow)
    (stops : List Stop) (items : List DayItem)
    (hitems : ∀ it ∈ items, it.hidden = false →
        pyStrip it.name = it.name ∧ it.name ≠ ""
          ∧ (it.category = "place" ∨ it.category = "restaurant" ∨ it.category = "hotel")) :
    (exportRows trip days stops items).filterMap parseRow
      = days.flatMap (fun day =>
          (visibleItemsForDay items day.id).map
            (rowOfItem day.date (locationOr stops trip.destination day.date))) := by
  unfold exportRows
  rw [List.filterMap_flatMap]
  apply flatMap_congr_mem
  intro day _
  rw [List.filterMap_map]
  apply filterMap_eq_map_of_some
  intro it hit
  obtain ⟨hitmem, hpred⟩ := List.mem_filter.mp hit
  have hhid : it.hidden = false := by
    simp only [Bool.and_eq_true, Bool.not_eq_true'] at hpred
    exact hpred.1
  have hp := hitems it hitmem hhid
  exact parseRow_exportRowOf day.date _ it hp.1 hp.2.1 hp.2.2

theorem makeDaysAux_map_date (t : Nat) :
    ∀ (k id dn date : Nat),
      (makeDaysAux t k id dn date).map (fun r => r.date) = List.range' date k := by
  intro k
  induction k with
  | zero => intro id dn date; rfl
  | succ k ih =>
      intro id dn date
      rw [List.range'_succ]
      simp only [makeDaysAux, List.map_cons, freshDay]
      rw [ih]

theorem mem_makeDaysAux (t : Nat) :
    ∀ (k id dn date : Nat) (r : DayRow),
      r ∈ makeDaysAux t k id dn date
        ↔ ∃ j, j < k ∧ r = freshDay t (id + j) (dn + j) (date + j) := by
  intro k
  induction k with
  | zero => intro id dn date r; simp [makeDaysAux]
  | succ k ih =>
      intro id dn date r
      simp only [makeDaysAux, List.mem_cons, ih]
      constructor
      · rintro (rfl | ⟨j, hj, rfl⟩)
        · exact ⟨0, by omega, rfl⟩
        · refine ⟨j + 1, by omega, ?_⟩
          rw [show id + (j + 1) = id + 1 + j by omega,
            show dn + (j + 1) = dn + 1 + j by omega,
            show date + (j + 1) = date + 1 + j by omega]
      · rintro ⟨j, hj, rfl⟩
        cases j with
        | zero => left; rfl
        | succ i =>
            right
            refine ⟨i, by omega, ?_⟩
            rw [show id + (i + 1) = id + 1 + i by omega,
              show dn + (i + 1) = dn + 1 + i by omega,
              show date + (i + 1) = date + 1 + i by omega]

theorem byDate_makeDays (t fid s e d : Nat) (h1 : s ≤ d) (h2 : d ≤ e) :
    byDate (makeDays t fid s e) d
      = some (freshDay t (fid + (d - s)) (1 + (d - s)) d) := by
  have hmem : freshDay t (fid + (d - s)) (1 + (d - s)) d ∈ makeDays t fid s e := by
    rw [show makeDays t fid s e = makeDaysAux t (e + 1 - s) fid 1 s from rfl,
      mem_makeDaysAux]
    exact ⟨d - s, by omega, by rw [show s + (d - s) = d by omega]⟩
  have hnd : ((makeDays t fid s e).map (fun r => r.date)).Nodup := by
    rw [show makeDays t fid s e = makeDaysAux t (e + 1 - s) fid 1 s from rfl,
      makeDaysAux_map_date]
    exact List.nodup_range' _ _
  exact byDate_self hnd hmem

/-- The day_items row inserted for one parsed CSV row. -/
def mkImportItem (dayRows : List DayRow) (i : Nat) (r : ParsedRow) : DayItem :=
  { id := i, itinerary_id := dayIdFor dayRows r.date, category := r.category,
    name := r.name, checked := r.selected, slot := slotFor r, hidden := false }

theorem itemsFromRows_eq_withIds (dayRows : List DayRow) :
    ∀ (rows : List ParsedRow) (fid : Nat),
      (∀ r ∈ rows, byDate dayRows r.date ≠ none) →
      itemsFromRows dayRows rows fid = withIds fid (mkImportItem dayRows) rows := by
  intro rows
  induction rows with
  | nil => intro fid _; rfl
  | cons r rest ih =>
      intro fid h
      cases hb : byDate dayRows r.date with
      | none => exact absurd hb (h r (by simp))
      | some day =>
          simp only [itemsFromRows, hb, withIds]
          rw [ih (fid + 1) (fun r2 hr2 => h r2 (by simp [hr2]))]
          simp only [mkImportItem, dayIdFor, hb]

theorem mem_itemTuples (days : List DayRow) (items : List DayItem)
    (t : Nat × String × String × Bool) :
    t ∈ itemTuples days items ↔
      ∃ day ∈ days, ∃ it ∈ items, it.hidden = false ∧ it.itinerary_id = day.id
        ∧ t = (day.date, it.category, it.name, it.checked) := by
  unfold itemTuples visibleItemsForDay
  simp only [List.mem_flatMap, List.mem_map, List.mem_filter, Bool.and_eq_true,
    beq_iff_eq, Bool.not_eq_true']
  constructor
  · rintro ⟨day, hday, it, ⟨hitmem, hhid, hitin⟩, rfl⟩
    exact ⟨day, hday, it, hitmem, hhid, hitin, rfl⟩
  · rintro ⟨day, hday, it, hitmem, hhid, hitin, rfl⟩
    exact ⟨day, hday, it, ⟨hitmem, hhid, hitin⟩, rfl⟩

theorem map_tup_P (trip : Trip) (days : List DayRow) (stops : List Stop)
    (items : List DayItem) :
    (days.flatMap (fun day =>
        (visibleItemsForDay items day.id).map
          (rowOfItem day.date (locationOr stops trip.destination day.date)))).map
        (fun r => (r.date, r.category, r.name, r.selected))
      = itemTuples days items := by
  rw [List.map_flatMap]
  unfold itemTuples
  apply flatMap_congr_mem
  intro day _
  rw [List.map_map]
  rfl

theorem slotFor_rowOfItem (dd : Nat) (city : String) (it : DayItem)
    (h : recognizedSlot it.category it.slot = true) :
    slotFor (rowOfItem dd city it) = it.slot := by
  unfold recognizedSlot at h
  cases hs : it.slot with
  | none => rw [hs] at h; cases h
  | some s =>
      rw [hs] at h
      simp only [Bool.or_eq_true, Bool.and_eq_true, beq_iff_eq] at h
      rcases h with ⟨hcat, hs2⟩ | ⟨hcat, hs2⟩
      · unfold slotFor rowOfItem todOf mealOf
        rcases hs2 with (h2 | h2) | h2 <;> simp [hcat, hs, h2]
      · unfold slotFor rowOfItem todOf mealOf
        rcases hs2 with ((h2 | h2) | h2) | h2 <;>
          simp [hcat, hs, h2, show ("restaurant" : String) ≠ "place" from by decide]

/-- C9: exporting a trip to CSV and re-importing it in origination mode
succeeds (given at least one visible item) and reproduces exactly the
same set of (date, category, name, checked) tuples over visible checklist
items; and every visible item whose slot is one of the recognized values
for its category reappears with exactly that slot.  The hypotheses are
the state invariants the application maintains for every stored item:
stripped non-empty names and a category in {place, restaurant, hotel}. -/
theorem c9_csv_round_trip (trip : Trip) (days : List DayRow) (stops : List Stop)
    (items : List DayItem) (dest style : String) (tid fdid fsid fiid : Nat)
    (hitems : ∀ it ∈ items, it.hidden = false →
        pyStrip it.name = it.name ∧ it.name ≠ ""
          ∧ (it.category = "place" ∨ it.category = "restaurant" ∨ it.category = "hotel"))
    (hne : exportRows trip days stops items ≠ []) :
    ∃ nt : NewTrip,
      csvImportNewTrip dest style (exportRows trip days stops items) tid fdid fsid fiid
          = some nt
        ∧ (∀ t, t ∈ itemTuples nt.days nt.items ↔ t ∈ itemTuples days items)
        ∧ (∀ day ∈ days, ∀ it ∈ visibleItemsForDay items day.id,
            recognizedSlot it.category it.slot = true →
            ∃ day2 ∈ nt.days, ∃ it2 ∈ nt.items,
              it2.itinerary_id = day2.id ∧ day2.date = day.date
                ∧ it2.category = it.category ∧ it2.name = it.name
                ∧ it2.checked = it.checked ∧ it2.slot = it.slot) := by
  have hparsed := filterMap_parseRow_exportRows trip days stops items hitems
  set P := days.flatMap (fun day =>
      (visibleItemsForDay items day.id).map
        (rowOfItem day.date (locationOr stops trip.destination day.date))) with hPdef
  have hPne : P ≠ [] := by
    intro hcon
    apply hne
    unfold exportRows
    rw [List.flatMap_eq_nil_iff]
    intro day hday
    rw [List.map_eq_nil_iff]
    have h2 := List.flatMap_eq_nil_iff.mp hcon day hday
    rwa [List.map_eq_nil_iff] at h2
  set s9 := listMin (P.map (fun r => r.date)) with hs9
  set e9 := listMax (P.map (fun r => r.date)) with he9
  set newDays := makeDays tid fdid s9 e9 with hndays
  have hlb : ∀ r ∈ P, s9 ≤ r.date := fun r hr => listMin_le (List.mem_map_of_mem _ hr)
  have hub : ∀ r ∈ P, r.date ≤ e9 := fun r hr => le_listMax (List.mem_map_of_mem _ hr)
  have hbyd : ∀ r ∈ P, byDate newDays r.date
      = some (freshDay tid (fdid + (r.date - s9)) (1 + (r.date - s9)) r.date) :=
    fun r hr => byDate_makeDays tid fdid s9 e9 r.date (hlb r hr) (hub r hr)
  have hitemsEq : itemsFromRows newDays P fiid = withIds fiid (mkImportItem newDays) P :=
    itemsFromRows_eq_withIds newDays P fiid (fun r hr => by rw [hbyd r hr]; simp)
  have hdayIdFor : ∀ r ∈ P, dayIdFor newDays r.date = fdid + (r.date - s9) := by
    intro r hr
    unfold dayIdFor
    rw [hbyd r hr]
    rfl
  refine ⟨{ trip := { id := tid, destination := dest, start_date := s9, end_date := e9,
                      travel_style := style },
            days := newDays,
            stops := cityStops tid P fsid,
            items := itemsFromRows newDays P fiid }, ?_, ?_, ?_⟩
  · simp only [csvImportNewTrip, hparsed, ← hPdef]
    rw [if_neg hPne]
  · intro t
    show t ∈ itemTuples newDays (itemsFromRows newDays P fiid) ↔ t ∈ itemTuples days items
    rw [hitemsEq, ← map_tup_P trip days stops items, ← hPdef, List.mem_map,
      mem_itemTuples]
    constructor
    · rintro ⟨day2, hday2, it2, hit2, hhid2, hitin2, rfl⟩
      rw [mem_withIds] at hit2
      obtain ⟨i, hi, rfl⟩ := hit2
      have hrP : P.get ⟨i, hi⟩ ∈ P := List.get_mem P i hi
      rw [show newDays = makeDaysAux tid (e9 + 1 - s9) fdid 1 s9 from rfl,
        mem_makeDaysAux] at hday2
      obtain ⟨j, hj, rfl⟩ := hday2
      have hii : (mkImportItem newDays (fiid + i) (P.get ⟨i, hi⟩)).itinerary_id
          = fdid + ((P.get ⟨i, hi⟩).date - s9) := by
        simp only [mkImportItem]
        exact hdayIdFor _ hrP
      rw [hii] at hitin2
      simp only [freshDay] at hitin2
      have hj2 : j = (P.get ⟨i, hi⟩).date - s9 := by omega
      subst hj2
      refine ⟨P.get ⟨i, hi⟩, hrP, ?_⟩
      have hdate : s9 + ((P.get ⟨i, hi⟩).date - s9) = (P.get ⟨i, hi⟩).date := by
        have := hlb _ hrP
        omega
      simp only [mkImportItem, freshDay, hdate]
    · rintro ⟨r, hrP, rfl⟩
      obtain ⟨⟨i, hi⟩, hget⟩ := List.mem_iff_get.mp hrP
      refine ⟨freshDay tid (fdid + (r.date - s9)) (1 + (r.date - s9)) (s9 + (r.date - s9)),
        ?_, mkImportItem newDays (fiid + i) r, ?_, rfl, ?_, ?_⟩
      · rw [show newDays = makeDaysAux tid (e9 + 1 - s9) fdid 1 s9 from rfl,
          mem_makeDaysAux]
        refine ⟨r.date - s9, ?_, rfl⟩
        have h1 := hlb r hrP
        have h2 := hub r hrP
        omega
      · rw [mem_withIds]
        exact ⟨i, hi, by rw [hget]⟩
      · simp only [mkImportItem, freshDay]
        exact hdayIdFor r hrP
      · have hdate : s9 + (r.date - s9) = r.date := by
          have := hlb r hrP
          omega
        simp only [mkImportItem, freshDay, hdate]
  · show ∀ day ∈ days, ∀ it ∈ visibleItemsForDay items day.id,
        recognizedSlot it.category it.slot = true →
        ∃ day2 ∈ newDays, ∃ it2 ∈ itemsFromRows newDays P fiid,
          it2.itinerary_id = day2.id ∧ day2.date = day.date
            ∧ it2.category = it.category ∧ it2.name = it.name
            ∧ it2.checked = it.checked ∧ it2.slot = it.slot
    intro day hday it hit hrec
    have hrP : rowOfItem day.date (locationOr stops trip.destination day.date) it ∈ P := by
      rw [hPdef, List.mem_flatMap]
      exact ⟨day, hday, List.mem_map_of_mem _ hit⟩
    set r := rowOfItem day.date (locationOr stops trip.destination day.date) it with hrdef
    obtain ⟨⟨i, hi⟩, hget⟩ := List.mem_iff_get.mp hrP
    have hdate : s9 + (r.date - s9) = r.date := by
      have := hlb r hrP
      omega
    rw [hitemsEq]
    refine ⟨freshDay tid (fdid + (r.date - s9)) (1 + (r.date - s9)) (s9 + (r.date - s9)),
      ?_, mkImportItem newDays (fiid + i) r, ?_, ?_, ?_, rfl, rfl, rfl, ?_⟩
    · rw [show newDays = makeDaysAux tid (e9 + 1 - s9) fdid 1 s9 from rfl,
        mem_makeDaysAux]
      refine ⟨r.date - s9, ?_, rfl⟩
      have h1 := hlb r hrP
      have h2 := hub r hrP
      omega
    · rw [mem_withIds]
      exact ⟨i, hi, by rw [hget]⟩
    · simp only [mkImportItem, freshDay]
      exact hdayIdFor r hrP
    · simp only [freshDay, hdate]
      rfl
    · simp only [mkImportItem]
      exact slotFor_rowOfItem day.date (locationOr stops trip.destination day.date) it hrec

/-- The trip exported in the C9 witness. -/
def exTrip9 : Trip :=
  { id := 40, destination := "Lisbon", start_date := 3000, end_date := 3001,
    travel_style := "Flexible" }

/-- Its two itinerary days. -/
def exDays9 : List DayRow :=
  [{ id := 41, trip_id := 40, day_number := 1, date := 3000 },
   { id := 42, trip_id := 40, day_number := 2, date := 3001 }]

/-- One stop naming the second day's location. -/
def exStops9 : List Stop :=
  [{ id := 45, trip_id := 40, name := "Belem", start_date := 3001, end_date := 3001 }]

/-- Checklist items of the witness trip, including a hidden one that the
export must skip. -/
def exItems9 : List DayItem :=
  [{ id := 46, itinerary_id := 41, category := "place", name := "Tower",
     checked := true, slot := some "morning" },
   { id := 47, itinerary_id := 41, category := "restaurant", name := "Tasca",
     checked := false, slot := some "lunch" },
   { id := 48, itinerary_id := 42, category := "hotel", name := "Hotel Belem",
     checked := true },
   { id := 49, itinerary_id := 42, category := "place", name := "Hidden",
     checked := true, hidden := true }]

/-- C9 witness: the round trip on the example trip succeeds. -/
theorem c9_witness :
    ∃ nt : NewTrip,
      csvImportNewTrip "Lisbon" "Flexible" (exportRows exTrip9 exDays9 exStops9 exItems9)
          40 60 70 80 = some nt :=
  (c9_csv_round_trip exTrip9 exDays9 exStops9 exItems9 "Lisbon" "Flexible" 40 60 70 80
      (by decide) (by decide)).imp
    (fun nt h => h.1)

/-- C2 witness: the membership characterization instantiated at the
counterexample day, stop and item. -/
theorem c2_witness :
    exHotel2 ∈ hotelsFilteredForDay [exStop2] [exHotel2] exDay2 ↔
      (exHotel2 ∈ [exHotel2] ∧ exHotel2.hidden = false
        ∧ exHotel2.itinerary_id = exDay2.id ∧ exHotel2.category = "hotel"
        ∧ ∀ loc, locationByDate [exStop2] exDay2.date = some loc → loc ≠ "" →
            substrCI loc exHotel2.name = true) :=
  c2_hotel_filter_visible_items [exStop2] [exHotel2] exDay2 exHotel2

/-- C5 witness: the token characterization instantiated at " NO ". -/
theorem c5_witness :
    parseSelected (some " NO ") = false ↔
      (pyLower (pyStrip ((some " NO " : Option String).getD "")) = "0"
        ∨ pyLower (pyStrip ((some " NO " : Option String).getD "")) = "false"
        ∨ pyLower (pyStrip ((some " NO " : Option String).getD "")) = "no"
        ∨ pyLower (pyStrip ((some " NO " : Option String).getD "")) = "n") :=
  c5_selected_parsing.1 (some " NO ")

/-- C6 witness: the percent formula instantiated at the example day. -/
theorem c6_witness :
    dayCompletionPercent exItems6 exDay6
      = roundRat (100 * (slotsFilled exDay6 + mealsPickedSpec exItems6 exDay6.id)) 6 :=
  c6_completion_percent.1 exItems6 exDay6
